import Mathlib

/-!
Verification of the pizero-openclaw voice-assistant core: the push-to-talk
state machine (`button_ptt.py`), the generation-based cancellation protocol of
the orchestrator (`main.py`), the two-stage TTS fetch/play pipeline
(`tts_openai.py`), the silence gate and WAV level check (`record_audio.py`),
and the bounded conversation history (`main.py` / `config.py`).

Python floats that are only ever compared against fixed decimal thresholds
(RMS levels, dwell times) are embedded as rationals; an RMS value
`sqrt(sum s^2 / n)` is carried as its radicand (the mean square) so the
development stays executable, and the comparison against a positive threshold
`t` is performed as `meanSquare < t^2`, which agrees with `sqrt meanSquare < t`
(see `AudioLevel.ltPos_spec`).
-/

namespace OpenClaw

/-- `config.py` defaults (values of the corresponding environment variables
are not modelled; the defaults are the configuration the spec quotes). -/
def SILENCE_RMS_THRESHOLD : ℚ := 200

def CONVERSATION_HISTORY_LENGTH : ℕ := 5

/-! ## `button_ptt.py`: the interaction state machine -/

/-- `button_ptt.State`. -/
inductive State
  | idle
  | listening
  | transcribing
  | thinking
  | streaming
  | error
deriving DecidableEq, Repr

/-- Observable events of `ButtonPTT._handle_press`, in invocation order:
hook invocations and the assignments to `self._state`. -/
inductive Event
  | hookAnyPress
  | hookAbortListening
  | hookCancel
  | hookPress
  | setState (s : State)
deriving DecidableEq, Repr

/-- `ButtonPTT._handle_press`, with all callbacks wired (as `main.py` wires
them) and the `cancel_allowed_cb` result passed in as `cancelAllowed`.
Returns the ordered event trace and the final `_state`. -/
def handlePress (st : State) (cancelAllowed : Bool) : List Event × State :=
  -- "Always wake display on any press"
  let wake := [Event.hookAnyPress]
  -- "Stuck in LISTENING (release never fired)? Abort so next press can start fresh."
  if st = State.listening then
    (wake ++ [Event.hookAbortListening, Event.setState State.idle], State.idle)
  -- "Active operation (transcribing/thinking/streaming): cancel and return to idle."
  else if st = State.transcribing ∨ st = State.thinking ∨ st = State.streaming then
    if ¬ cancelAllowed then (wake, st)
    else (wake ++ [Event.setState State.idle, Event.hookCancel], State.idle)
  else if ¬ (st = State.idle ∨ st = State.error) then (wake, st)
  else (wake ++ [Event.setState State.listening, Event.hookPress], State.listening)

/-- The `cancel_allowed_cb` lambda from `Assistant.__init__`:
`(time.monotonic() - self._state_entered_at) >= 2.0`. -/
def cancelAllowedMain (now stateEnteredAt : ℚ) : Bool :=
  decide ((now - stateEnteredAt) ≥ 2)

/-! ## `tts_openai.py`: `_rms_to_shape` -/

/-- `_rms_to_shape` from `_analyze_mouth` in `tts_openai.py`. -/
def rms_to_shape (rms : ℚ) : ℕ :=
  if rms < 300 then 0
  else if rms < 1500 then 1
  else if rms < 4000 then 2
  else 3

/-! ## `record_audio.py`: recorder start and the WAV level check -/

/-- Result of `Recorder.start()`: either a normal return (carrying whether a
recording is in progress afterwards) or a raised exception. -/
inductive StartResult
  | ok (isRecording : Bool)
  | raised
deriving DecidableEq, Repr

/-- `Recorder.start()`. `isRecording` is the `self.is_recording` property at
entry; `spawnFails` says whether the `subprocess.Popen` call would raise
(e.g. `arecord` missing). The early `if self.is_recording: return` makes the
call a silent no-op while recording. -/
def recorderStart (isRecording : Bool) (spawnFails : Bool) : StartResult :=
  if isRecording then StartResult.ok true
  else if spawnFails then StartResult.raised
  else StartResult.ok true

/-- Return value of `check_audio_level`: either `float("inf")` (the
`except` branch) or a finite RMS, represented by its mean square
`sum s^2 / n` (its radicand). -/
inductive AudioLevel
  | posInf
  | finite (meanSquare : ℚ)
deriving DecidableEq, Repr

/-- `level < t` for a positive threshold `t`, as the silence gate
`rms < config.SILENCE_RMS_THRESHOLD` computes it: `inf < t` is false, and for
a finite level `sqrt meanSquare < t` iff `meanSquare < t^2`. -/
def AudioLevel.ltPos (l : AudioLevel) (t : ℚ) : Bool :=
  match l with
  | AudioLevel.posInf => false
  | AudioLevel.finite ms => decide (ms < t ^ 2)

/-- The comparison `AudioLevel.ltPos` agrees with the comparison of the real
RMS `sqrt meanSquare` against the threshold. -/
theorem AudioLevel.ltPos_spec (ms t : ℚ) (ht : 0 < t) :
    (AudioLevel.finite ms).ltPos t = true ↔ Real.sqrt (ms : ℝ) < (t : ℝ) := by
  have h := Real.sqrt_lt' (x := (ms : ℝ)) (y := (t : ℝ)) (by exact_mod_cast ht)
  simp only [AudioLevel.ltPos, decide_eq_true_eq]
  rw [h]
  exact_mod_cast Iff.rfl

/-- The outcome of the `wave` read in `check_audio_level`:
`failure` when `wave.open`/`readframes` raises (missing file, malformed
header); otherwise the header's frame count and channel count, the int16
samples actually decodable from the data chunk, and whether a trailing odd
byte is present. -/
inductive WavRead
  | failure
  | ok (nFrames nChannels : ℕ) (samples : List ℤ) (oddByte : Bool)
deriving DecidableEq, Repr

/-- `check_audio_level` from `record_audio.py`.
`n_frames == 0` returns `0.0`; a data chunk shorter than
`n_samples * 2` bytes returns `0.0`; an exception returns `inf`;
otherwise the RMS of the first `n_samples` samples is returned
(represented by its mean square). -/
def check_audio_level : WavRead → AudioLevel
  | WavRead.failure => AudioLevel.posInf
  | WavRead.ok nFrames nChannels samples oddByte =>
    if nFrames = 0 then AudioLevel.finite 0
    else
      let nSamples := nFrames * nChannels
      let rawLen := 2 * samples.length + (if oddByte then 1 else 0)
      if rawLen < nSamples * 2 then AudioLevel.finite 0
      else
        let used := samples.take nSamples
        AudioLevel.finite (((used.map (fun s => s * s)).sum : ℤ) / (nSamples : ℚ))

/-! ## `main.py`: the bounded conversation history -/

/-- One `{"role": ..., "content": ...}` message. -/
structure ChatMsg where
  role : String
  content : String
deriving DecidableEq, Repr

/-- Python's `lst[-n:]`. For `n = 0`, `lst[-0:]` is `lst[0:]`, the whole
list; otherwise the last `n` elements. -/
def pySliceLastN (n : ℕ) (l : List ChatMsg) : List ChatMsg :=
  if n = 0 then l else l.drop (l.length - n)

/-- The history update at the end of `Assistant._process_utterance_inner`
(lines 231-235): append the user and assistant messages, then trim with
`self._conversation_history[-max_msgs:]` when over `max_msgs`. -/
def updateHistory (histLen : ℕ) (hist : List ChatMsg)
    (user assistant : String) : List ChatMsg :=
  let h := hist ++ [⟨"user", user⟩, ⟨"assistant", assistant⟩]
  let maxMsgs := histLen * 2
  if h.length > maxMsgs then pySliceLastN maxMsgs h else h

/-! ## `tts_openai.py`: the two-stage fetch/play pipeline

`TTSPlayer` runs a fetcher thread (`_fetch_loop`) and a player thread
(`_play_loop`) connected by `_play_q` (bounded, `maxsize=2`), fed by the
unbounded `_submit_q`.  The pipeline is embedded as a state machine whose
atomic steps are one loop iteration of one of the two threads — the
queue-boundary granularity at which the code itself synchronises — and the
concurrency is the quantification over all interleavings (schedules) of the
two threads. -/

/-- Python `\s` (also the whitespace `str.strip()` removes). -/
def isPySpace (c : Char) : Bool :=
  c = ' ' ∨ c = '\t' ∨ c = '\n' ∨ c = '\r' ∨ c = '\x0b' ∨ c = '\x0c'

/-- Python `str.strip()` on a character list. -/
def pyStrip (l : List Char) : List Char :=
  ((l.dropWhile isPySpace).reverse.dropWhile isPySpace).reverse

/-- Python `str.strip()`. -/
def pyStripStr (s : String) : String :=
  String.mk (pyStrip s.data)

/-- An entry of `_submit_q`: a text, or the `_SENTINEL` enqueued by
`flush`/`cancel`. -/
inductive SubmitItem
  | text (t : String)
  | sentinel
deriving DecidableEq, Repr

/-- An entry of `_play_q`: a fetched `(text, wav_data)` pair, or the
forwarded sentinel. -/
inductive PlayItem
  | item (t : String) (w : List ℤ)
  | sentinel
deriving DecidableEq, Repr

/-- The shared state of a `TTSPlayer`: the two queues, the ordered list of
texts whose audio has been played to completion, and the `_cancel`/`_done`/
`is_speaking` events. -/
structure TTSState where
  submitQ : List SubmitItem
  playQ : List PlayItem
  played : List String
  cancelFlag : Bool
  doneFlag : Bool
  speaking : Bool
deriving DecidableEq, Repr

/-- The state of a freshly constructed `TTSPlayer`. -/
def TTSState.init : TTSState :=
  { submitQ := [], playQ := [], played := [], cancelFlag := false,
    doneFlag := false, speaking := false }

/-- `TTSPlayer.submit`: strip, drop empty text (and everything in
`DRY_RUN`), else enqueue on `_submit_q`. -/
def TTSState.submit (dryRun : Bool) (s : TTSState) (text : String) : TTSState :=
  let t := pyStripStr text
  if t = "" ∨ dryRun then s
  else { s with submitQ := s.submitQ ++ [SubmitItem.text t] }

/-- The enqueue half of `TTSPlayer.flush`: clear `_done`, put the sentinel
on `_submit_q`.  The blocking half is `self._done.wait(timeout=120)`, which
returns either because the done event fired or because the 120-second
timeout expired with the event still unset — see `flushReturn`. -/
def TTSState.flushEnqueue (s : TTSState) : TTSState :=
  { s with doneFlag := false, submitQ := s.submitQ ++ [SubmitItem.sentinel] }

/-- The two ways `self._done.wait(timeout=120)` releases `flush()`: on the
signal path (`timedOut = false`) the done event has fired; on the timeout
path (`timedOut = true`) 120 seconds elapsed with the event still unset
(items may still be queued or playing).  The timeout instant itself is
wall-clock nondeterminism: any reachable pipeline state with the done event
unset is a possible timeout-return state. -/
abbrev flushReturn (s : TTSState) (timedOut : Bool) : Prop :=
  s.doneFlag = !timedOut

/-- One iteration of `TTSPlayer._fetch_loop`, given the synthesis oracle
`fetch` (`_fetch_wav`, `none` = failed fetch).  A `put` on the bounded
`_play_q` blocks while it holds 2 entries; a blocked iteration is modelled
as a stutter that leaves the item at the head of `_submit_q`. -/
def fetchStep (fetch : String → Option (List ℤ)) (s : TTSState) : TTSState :=
  match s.submitQ with
  | [] => s
  | it :: rest =>
    match it with
    | SubmitItem.sentinel =>
      if s.playQ.length < 2 then
        { s with submitQ := rest, playQ := s.playQ ++ [PlayItem.sentinel] }
      else s
    | SubmitItem.text t =>
      if s.cancelFlag then
        if s.playQ.length < 2 then
          { s with submitQ := rest, playQ := s.playQ ++ [PlayItem.sentinel] }
        else s
      else
        let text := pyStripStr t
        if text = "" then { s with submitQ := rest }
        else
          match fetch text with
          | none => { s with submitQ := rest }
          | some w =>
            if s.cancelFlag then
              if s.playQ.length < 2 then
                { s with submitQ := rest, playQ := s.playQ ++ [PlayItem.sentinel] }
              else s
            else if s.playQ.length < 2 then
              { s with submitQ := rest, playQ := s.playQ ++ [PlayItem.item text w] }
            else s

/-- One iteration of `TTSPlayer._play_loop`.  The sentinel (or a pending
cancel) clears the cancel flag and shared playback state and fires `_done`;
an item is played to completion by `_play_wav`, which sets `is_speaking`
for the duration of playback and clears it in its `finally`. -/
def playStep (s : TTSState) : TTSState :=
  match s.playQ with
  | [] => s
  | it :: rest =>
    match it with
    | PlayItem.sentinel =>
      { s with playQ := rest, cancelFlag := false, doneFlag := true,
               speaking := false }
    | PlayItem.item t _w =>
      if s.cancelFlag then
        { s with playQ := rest, cancelFlag := false, doneFlag := true,
                 speaking := false }
      else
        { s with playQ := rest, played := s.played ++ [t], speaking := false }

/-- A scheduler choice: which of the two pipeline threads takes the next
step. -/
inductive Choice
  | fetcher
  | player
deriving DecidableEq, Repr

/-- Run the pipeline under an interleaving `sched` of the two threads. -/
def runPipeline (fetch : String → Option (List ℤ)) (sched : List Choice)
    (s : TTSState) : TTSState :=
  sched.foldl
    (fun st c =>
      match c with
      | Choice.fetcher => fetchStep fetch st
      | Choice.player => playStep st)
    s

/-- The state reached by submitting `texts` to a fresh player and then
calling `flush`, before the worker threads run. -/
def afterSubmitsAndFlush (texts : List String) : TTSState :=
  TTSState.flushEnqueue (texts.foldl (TTSState.submit false) TTSState.init)

/-! ## `main.py`: one utterance episode (`Assistant._process_utterance_inner`)

The episode worker is embedded as a sequential trace generator: every atomic
operation (an externally observable side effect, a `_is_stale` read, or a
blocking point) occupies one instant of a logical clock, and a cancellation —
`_on_button_cancel` or `shutdown` incrementing `_worker_gen` on another
thread — lands at an arbitrary instant `cancelAt`: every `_is_stale` read at
instant `t ≥ cancelAt` observes the episode as stale, and every effect at
instant `t ≥ cancelAt` is an effect occurring past the cancellation point. -/

/-- The side effects and control points of an episode worker, in trace
order. -/
inductive Eff
  | recorderStop
  | checkLevelCall
  | displayStopCharacter
  | displaySetStatus (msg : String)
  | displaySetCharacterState (tag : String)
  | displayStartSpinner (msg : String)
  | displayStopSpinner
  | displaySetResponseText (s : String)
  | displayAppendResponse (s : String)
  | displayFlushResponse
  | displaySetBacklight
  | displaySetIdleScreen
  | stateSet (s : State)
  | transcribeCall
  | chatStreamOpen
  | ttsSubmitText (s : String)
  | ttsFlushWait
  | historyUpdate (user assistant : String)
  | dismissWait
  | sleepPause
  | staleRead
deriving DecidableEq, Repr

/-- Display updates (the `self.display.*` calls the worker makes). -/
def Eff.isDisplay : Eff → Bool
  | Eff.displayStopCharacter => true
  | Eff.displaySetStatus _ => true
  | Eff.displaySetCharacterState _ => true
  | Eff.displayStartSpinner _ => true
  | Eff.displayStopSpinner => true
  | Eff.displaySetResponseText _ => true
  | Eff.displayAppendResponse _ => true
  | Eff.displayFlushResponse => true
  | Eff.displaySetBacklight => true
  | Eff.displaySetIdleScreen => true
  | _ => false

/-- Conversation-history mutations. -/
def Eff.isHistory : Eff → Bool
  | Eff.historyUpdate _ _ => true
  | _ => false

/-- Audio submissions (`self._tts.submit(...)`). -/
def Eff.isAudioSubmit : Eff → Bool
  | Eff.ttsSubmitText _ => true
  | _ => false

/-- `self.ptt.state = ...` assignments. -/
def Eff.isStateSet : Eff → Bool
  | Eff.stateSet _ => true
  | _ => false

/-- A timestamped episode trace. -/
abbrev Trace := List (ℕ × Eff)

/-- Append one atomic operation to the trace and advance the clock. -/
def emit (e : Eff) (s : ℕ × Trace) : ℕ × Trace :=
  (s.1 + 1, s.2 ++ [(s.1, e)])

/-- Emit a fixed sequence of operations. -/
def emits (es : List Eff) (s : ℕ × Trace) : ℕ × Trace :=
  es.foldl (fun a e => emit e a) s

/-- The effects of `Assistant._go_idle` (its `time.monotonic()` reads are
not observable). -/
def goIdleEffs : List Eff :=
  [Eff.stateSet State.idle, Eff.displaySetBacklight,
   Eff.displayStopCharacter, Eff.displaySetIdleScreen]

/-- Whether a `_is_stale(my_gen)` read at instant `t` observes the captured
generation as stale, the cancellation having landed at instant `cancelAt`
(`none` = never). -/
def staleAt (cancelAt : Option ℕ) (t : ℕ) : Bool :=
  match cancelAt with
  | none => false
  | some c => decide (c ≤ t)

/-- End indices of the non-overlapping left-to-right matches of the Python
regex `[.!?]\s|\n` (used by the sentence batcher), scanning from index
`i`. -/
def sentenceEnds : List Char → ℕ → List ℕ
  | [], _ => []
  | [c], i => if c = '\n' then [i + 1] else []
  | c1 :: c2 :: rest, i =>
    if (c1 = '.' ∨ c1 = '!' ∨ c1 = '?') ∧ isPySpace c2 then
      (i + 2) :: sentenceEnds rest (i + 2)
    else if c1 = '\n' then
      (i + 1) :: sentenceEnds (c2 :: rest) (i + 1)
    else
      sentenceEnds (c2 :: rest) (i + 1)

/-- The environment of one episode: the silence-gate level of the captured
audio, whether TTS is enabled, the transcription result, the chat stream's
text deltas, and the `_shutdown` flag. -/
structure EpisodeEnv where
  level : AudioLevel
  ttsEnabled : Bool
  transcript : String
  deltas : List String
  shutdown : Bool

/-- The `for delta in stream_response(...)` loop of
`_process_utterance_inner` (lines 186-210): per delta, the stale/shutdown
break check, the first-token display switch, response accumulation, and the
two-sentence TTS batcher.  Returns the clock/trace, the accumulated
`full_response`, and the remaining `tts_buffer`. -/
def streamLoop (cancelAt : Option ℕ) (env : EpisodeEnv) :
    List String → Bool → String → List Char → ℕ × Trace →
    (ℕ × Trace) × String × List Char
  | [], _first, full, buf, s => (s, full, buf)
  | delta :: rest, first, full, buf, s =>
    let stale := staleAt cancelAt s.1
    let s := emit Eff.staleRead s
    if stale ∨ env.shutdown then (s, full, buf)
    else
      let s :=
        if first then
          if env.ttsEnabled then emit (Eff.displaySetCharacterState "talking") s
          else emit (Eff.displaySetResponseText "") (emit Eff.displayStopSpinner s)
        else s
      let full := full ++ delta
      let s := if env.ttsEnabled then s else emit (Eff.displayAppendResponse delta) s
      if env.ttsEnabled then
        let buf := buf ++ delta.data
        let ends := sentenceEnds buf 0
        if 2 ≤ ends.length then
          let cut := ends.getD 1 0
          let chunk := pyStrip (buf.take cut)
          let buf := buf.drop cut
          let s := if chunk ≠ [] then emit (Eff.ttsSubmitText (String.mk chunk)) s else s
          streamLoop cancelAt env rest false full buf s
        else
          streamLoop cancelAt env rest false full buf s
      else
        streamLoop cancelAt env rest false full buf s

/-- `Assistant._process_utterance_inner(my_gen)` as a trace generator
(`main.py` lines 125-249), under a cancellation landing at `cancelAt`. -/
def runInner (env : EpisodeEnv) (cancelAt : Option ℕ) : Trace :=
  let s : ℕ × Trace := (0, [])
  let s := emit Eff.recorderStop s
  let s := emit Eff.checkLevelCall s
  -- silence gate: `if rms < config.SILENCE_RMS_THRESHOLD`
  if env.level.ltPos SILENCE_RMS_THRESHOLD then
    let stale := staleAt cancelAt s.1
    let s := emit Eff.staleRead s
    if stale then s.2
    else
      let s := emit Eff.displayStopCharacter s
      let s := emit (Eff.displaySetStatus "No speech detected") s
      let s := emit Eff.sleepPause s
      let stale := staleAt cancelAt s.1
      let s := emit Eff.staleRead s
      if stale then s.2 else (emits goIdleEffs s).2
  else
    let stale := staleAt cancelAt s.1
    let s := emit Eff.staleRead s
    if stale then s.2
    else
      let s := emit (Eff.stateSet State.transcribing) s
      let s :=
        if env.ttsEnabled then emit (Eff.displaySetCharacterState "thinking") s
        else emit (Eff.displaySetStatus "Transcribing...") s
      let s := emit Eff.transcribeCall s
      -- `if not transcript or self._is_stale(my_gen):` (short-circuit), then
      -- the guarded `_go_idle` re-reads `_is_stale`
      if env.transcript = "" then
        let stale := staleAt cancelAt s.1
        let s := emit Eff.staleRead s
        if ¬ stale then (emits goIdleEffs s).2 else s.2
      else
        let stale := staleAt cancelAt s.1
        let s := emit Eff.staleRead s
        if stale then
          let stale := staleAt cancelAt s.1
          let s := emit Eff.staleRead s
          if ¬ stale then (emits goIdleEffs s).2 else s.2
        else
          -- `if self._is_stale(my_gen): return` (line 173)
          let stale := staleAt cancelAt s.1
          let s := emit Eff.staleRead s
          if stale then s.2
          else
            let s := emit (Eff.stateSet State.thinking) s
            let s := if env.ttsEnabled then s else emit (Eff.displayStartSpinner "Thinking") s
            let s := emit (Eff.stateSet State.streaming) s
            let s := emit Eff.chatStreamOpen s
            match streamLoop cancelAt env env.deltas true "" [] s with
            | (s, full, buf) =>
              -- `if self._is_stale(my_gen): return` (line 213)
              let stale := staleAt cancelAt s.1
              let s := emit Eff.staleRead s
              if stale then s.2
              else
                let s :=
                  if env.ttsEnabled then
                    let s :=
                      if pyStrip buf ≠ [] then
                        emit (Eff.ttsSubmitText (String.mk (pyStrip buf))) s
                      else s
                    let s := emit Eff.ttsFlushWait s
                    let s := emit Eff.displayStopCharacter s
                    emit (Eff.displaySetResponseText full) s
                  else emit Eff.displayFlushResponse s
                let s := emit (Eff.historyUpdate env.transcript full) s
                let s := emit Eff.dismissWait s
                -- `if self._is_stale(my_gen): return` (line 241)
                let stale := staleAt cancelAt s.1
                let s := emit Eff.staleRead s
                if stale then s.2 else (emits goIdleEffs s).2

/-- A TTS-enabled episode with a non-silent capture, transcript `"hi"` and a
single-sentence chat response; used to exhibit the effect leak of a cancel
landing during the blocking `tts.flush()`. -/
def flushCancelEnv : EpisodeEnv :=
  { level := AudioLevel.finite 1000000, ttsEnabled := true,
    transcript := "hi", deltas := ["Hello there."], shutdown := false }

/-- The audio `_fetch_wav` hands the player for `t` (only read where the
fetch is known to have succeeded). -/
def fetchedWav (fetch : String → Option (List ℤ)) (t : String) : List ℤ :=
  (fetch t).getD []

/-- The reachable states of the fetch/play pipeline after submitting the
pre-trimmed texts `TS` and one flush sentinel: the fetcher has consumed the
first `k` texts, the player has played the first `j ≤ k`; then the sentinel
is in `_play_q`; then the sentinel has been consumed and `_done` fired. -/
inductive PipelineInv (fetch : String → Option (List ℤ)) (TS : List String) :
    TTSState → Prop
  | fetching (j k : ℕ) (hjk : j ≤ k) (hk : k ≤ TS.length) :
      PipelineInv fetch TS
        { submitQ := (TS.drop k).map SubmitItem.text ++ [SubmitItem.sentinel],
          playQ := ((TS.take k).drop j).map
            (fun t => PlayItem.item t (fetchedWav fetch t)),
          played := TS.take j,
          cancelFlag := false, doneFlag := false, speaking := false }
  | draining (j : ℕ) (hj : j ≤ TS.length) :
      PipelineInv fetch TS
        { submitQ := [],
          playQ := ((TS.drop j).map
            (fun t => PlayItem.item t (fetchedWav fetch t))) ++ [PlayItem.sentinel],
          played := TS.take j,
          cancelFlag := false, doneFlag := false, speaking := false }
  | finished :
      PipelineInv fetch TS
        { submitQ := [], playQ := [], played := TS,
          cancelFlag := false, doneFlag := true, speaking := false }

/-- The `_play_q` entry `_fetch_loop` produces for the text `t`: the fetched
`(text, wav)` pair, or nothing when `_fetch_wav` failed and the item was
dropped ("skipping sentence (fetch failed)"). -/
def fetchEntry (fetch : String → Option (List ℤ)) (t : String) :
    Option PlayItem :=
  (fetch t).map (fun w => PlayItem.item t w)

/-- Of the texts `l`, those the player actually plays: the ones whose fetch
succeeded, kept in submission order. -/
def playedOf (fetch : String → Option (List ℤ)) (l : List String) :
    List String :=
  l.filter (fun t => (fetch t).isSome)

/-- Reachable pipeline states after submitting pre-trimmed nonempty texts
and one flush sentinel, with fetch failures allowed: `done` are the texts
the player is already past (played exactly when their fetch succeeded),
`mid` those the fetcher has pulled (fetched into `_play_q`, or dropped) but
the player is not yet past, `todo` those still in `_submit_q`; then the
sentinel is in `_play_q`; then the sentinel has been consumed and `_done`
has fired. -/
inductive PipelineInvOk (fetch : String → Option (List ℤ))
    (TS : List String) : TTSState → Prop
  | fetching (done mid todo : List String) (hTS : TS = done ++ mid ++ todo) :
      PipelineInvOk fetch TS
        { submitQ := todo.map SubmitItem.text ++ [SubmitItem.sentinel],
          playQ := mid.filterMap (fetchEntry fetch),
          played := playedOf fetch done,
          cancelFlag := false, doneFlag := false, speaking := false }
  | draining (done mid : List String) (hTS : TS = done ++ mid) :
      PipelineInvOk fetch TS
        { submitQ := [],
          playQ := mid.filterMap (fetchEntry fetch) ++ [PlayItem.sentinel],
          played := playedOf fetch done,
          cancelFlag := false, doneFlag := false, speaking := false }
  | finished :
      PipelineInvOk fetch TS
        { submitQ := [], playQ := [], played := playedOf fetch TS,
          cancelFlag := false, doneFlag := true, speaking := false }

/-! ## Theorems -/

/-- `submit`ting a list of pre-trimmed, nonempty texts enqueues exactly
those texts on `_submit_q`, in order. -/
theorem submit_foldl (texts : List String) (s : TTSState)
    (h : ∀ t ∈ texts, pyStripStr t = t ∧ t ≠ "") :
    texts.foldl (TTSState.submit false) s =
      { s with submitQ := s.submitQ ++ texts.map SubmitItem.text } := by
  induction texts generalizing s with
  | nil => simp
  | cons t ts ih =>
    have ht := h t (List.mem_cons_self t ts)
    have hstep : TTSState.submit false s t
        = { s with submitQ := s.submitQ ++ [SubmitItem.text t] } := by
      simp [TTSState.submit, ht.1, ht.2]
    rw [List.foldl_cons, hstep, ih _ (fun x hx => h x (List.mem_cons_of_mem _ hx))]
    simp

/-- The pipeline state right after `submit`ting `texts` and `flush`ing. -/
theorem afterSubmitsAndFlush_eq (texts : List String)
    (h : ∀ t ∈ texts, pyStripStr t = t ∧ t ≠ "") :
    afterSubmitsAndFlush texts =
      { submitQ := texts.map SubmitItem.text ++ [SubmitItem.sentinel],
        playQ := [], played := [], cancelFlag := false, doneFlag := false,
        speaking := false } := by
  rw [afterSubmitsAndFlush, submit_foldl texts _ h]
  simp [TTSState.flushEnqueue, TTSState.init]

/-- The pipeline invariant holds at the state `submit`s-then-`flush`
leaves behind. -/
theorem pipelineInv_init (fetch : String → Option (List ℤ))
    (texts : List String) (h : ∀ t ∈ texts, pyStripStr t = t ∧ t ≠ "") :
    PipelineInv fetch texts (afterSubmitsAndFlush texts) := by
  rw [afterSubmitsAndFlush_eq texts h]
  have hinv : PipelineInv fetch texts
      { submitQ := (texts.drop 0).map SubmitItem.text ++ [SubmitItem.sentinel],
        playQ := ((texts.take 0).drop 0).map
          (fun t => PlayItem.item t (fetchedWav fetch t)),
        played := texts.take 0,
        cancelFlag := false, doneFlag := false, speaking := false } :=
    PipelineInv.fetching 0 0 le_rfl (Nat.zero_le _)
  simpa using hinv

/-- One `_fetch_loop` iteration preserves the pipeline invariant. -/
theorem pipelineInv_fetchStep (fetch : String → Option (List ℤ))
    (TS : List String)
    (hTS : ∀ t ∈ TS, pyStripStr t = t ∧ t ≠ "" ∧ fetch t ≠ none)
    (s : TTSState) (hs : PipelineInv fetch TS s) :
    PipelineInv fetch TS (fetchStep fetch s) := by
  cases hs with
  | finished => exact PipelineInv.finished
  | draining j hj => exact PipelineInv.draining j hj
  | fetching j k hjk hk =>
    rcases Nat.lt_or_ge k TS.length with hklt | hkge
    · -- the fetcher pulls the text `TS[k]`
      have hdrop : TS.drop k = TS[k] :: TS.drop (k + 1) :=
        List.drop_eq_getElem_cons hklt
      have hmem : TS[k] ∈ TS := List.getElem_mem hklt
      obtain ⟨htrim, hne, hnn⟩ := hTS _ hmem
      obtain ⟨w, hw⟩ := Option.ne_none_iff_exists'.mp hnn
      have hwav : fetchedWav fetch TS[k] = w := by simp [fetchedWav, hw]
      have htake : (TS.take (k + 1)).drop j = (TS.take k).drop j ++ [TS[k]] := by
        rw [List.take_succ, List.getElem?_eq_getElem hklt]
        exact List.drop_append_of_le_length (by simp; omega)
      by_cases hq :
          (((TS.take k).drop j).map
            (fun t => PlayItem.item t (fetchedWav fetch t))).length < 2
      · have heq : fetchStep fetch
            { submitQ := (TS.drop k).map SubmitItem.text ++ [SubmitItem.sentinel],
              playQ := ((TS.take k).drop j).map
                (fun t => PlayItem.item t (fetchedWav fetch t)),
              played := TS.take j,
              cancelFlag := false, doneFlag := false, speaking := false } =
            { submitQ := (TS.drop (k + 1)).map SubmitItem.text
                ++ [SubmitItem.sentinel],
              playQ := ((TS.take (k + 1)).drop j).map
                (fun t => PlayItem.item t (fetchedWav fetch t)),
              played := TS.take j,
              cancelFlag := false, doneFlag := false, speaking := false } := by
          rw [hdrop]
          simp only [List.map_cons, List.cons_append, fetchStep, htrim, hw,
            Bool.false_eq_true, if_false]
          rw [if_neg hne, if_pos hq]
          rw [htake]
          simp [hwav]
        rw [heq]
        exact PipelineInv.fetching j (k + 1) (hjk.trans (Nat.le_succ k)) hklt
      · have heq : fetchStep fetch
            { submitQ := (TS.drop k).map SubmitItem.text ++ [SubmitItem.sentinel],
              playQ := ((TS.take k).drop j).map
                (fun t => PlayItem.item t (fetchedWav fetch t)),
              played := TS.take j,
              cancelFlag := false, doneFlag := false, speaking := false } =
            { submitQ := (TS.drop k).map SubmitItem.text ++ [SubmitItem.sentinel],
              playQ := ((TS.take k).drop j).map
                (fun t => PlayItem.item t (fetchedWav fetch t)),
              played := TS.take j,
              cancelFlag := false, doneFlag := false, speaking := false } := by
          rw [hdrop]
          simp only [List.map_cons, List.cons_append, fetchStep, htrim, hw,
            Bool.false_eq_true, if_false]
          rw [if_neg hne, if_neg hq]
        rw [heq]
        exact PipelineInv.fetching j k hjk hk
    · -- the fetcher pulls the sentinel and forwards it
      have hkeq : k = TS.length := le_antisymm hk hkge
      subst hkeq
      by_cases hq :
          (((TS.take TS.length).drop j).map
            (fun t => PlayItem.item t (fetchedWav fetch t))).length < 2
      · have heq : fetchStep fetch
            { submitQ := (TS.drop TS.length).map SubmitItem.text
                ++ [SubmitItem.sentinel],
              playQ := ((TS.take TS.length).drop j).map
                (fun t => PlayItem.item t (fetchedWav fetch t)),
              played := TS.take j,
              cancelFlag := false, doneFlag := false, speaking := false } =
            { submitQ := [],
              playQ := ((TS.drop j).map
                (fun t => PlayItem.item t (fetchedWav fetch t)))
                ++ [PlayItem.sentinel],
              played := TS.take j,
              cancelFlag := false, doneFlag := false, speaking := false } := by
          simp only [List.drop_length, List.map_nil, List.nil_append, fetchStep]
          rw [if_pos hq]
          simp [List.take_length]
        rw [heq]
        exact PipelineInv.draining j (hjk.trans hk)
      · have heq : fetchStep fetch
            { submitQ := (TS.drop TS.length).map SubmitItem.text
                ++ [SubmitItem.sentinel],
              playQ := ((TS.take TS.length).drop j).map
                (fun t => PlayItem.item t (fetchedWav fetch t)),
              played := TS.take j,
              cancelFlag := false, doneFlag := false, speaking := false } =
            { submitQ := (TS.drop TS.length).map SubmitItem.text
                ++ [SubmitItem.sentinel],
              playQ := ((TS.take TS.length).drop j).map
                (fun t => PlayItem.item t (fetchedWav fetch t)),
              played := TS.take j,
              cancelFlag := false, doneFlag := false, speaking := false } := by
          simp only [List.drop_length, List.map_nil, List.nil_append, fetchStep]
          rw [if_neg hq]
        rw [heq]
        exact PipelineInv.fetching j TS.length hjk hk


/-- One `_play_loop` iteration preserves the pipeline invariant. -/
theorem pipelineInv_playStep (fetch : String → Option (List ℤ))
    (TS : List String) (s : TTSState) (hs : PipelineInv fetch TS s) :
    PipelineInv fetch TS (playStep s) := by
  cases hs with
  | finished => exact PipelineInv.finished
  | fetching j k hjk hk =>
    rcases Nat.lt_or_ge j k with hjlt | hjge
    · -- the player pulls and plays the item for `TS[j]`
      have hjlen : j < (TS.take k).length := by simp; omega
      have hjTS : j < TS.length := by omega
      have hdropk : (TS.take k).drop j = TS[j] :: (TS.take k).drop (j + 1) := by
        rw [List.drop_eq_getElem_cons hjlen, List.getElem_take]
      have htakej : TS.take (j + 1) = TS.take j ++ [TS[j]] := by
        rw [List.take_succ, List.getElem?_eq_getElem hjTS]
        rfl
      have heq : playStep
          { submitQ := (TS.drop k).map SubmitItem.text ++ [SubmitItem.sentinel],
            playQ := ((TS.take k).drop j).map
              (fun t => PlayItem.item t (fetchedWav fetch t)),
            played := TS.take j,
            cancelFlag := false, doneFlag := false, speaking := false } =
          { submitQ := (TS.drop k).map SubmitItem.text ++ [SubmitItem.sentinel],
            playQ := ((TS.take k).drop (j + 1)).map
              (fun t => PlayItem.item t (fetchedWav fetch t)),
            played := TS.take (j + 1),
            cancelFlag := false, doneFlag := false, speaking := false } := by
        rw [hdropk, htakej]
        simp only [List.map_cons, playStep, Bool.false_eq_true, if_false]
      rw [heq]
      exact PipelineInv.fetching (j + 1) k hjlt hk
    · -- the `_play_q` is empty: the player blocks
      have hjeq : j = k := le_antisymm hjk hjge
      subst hjeq
      have hnil : (TS.take j).drop j = [] := by
        apply List.drop_eq_nil_of_le
        simp
      have heq : playStep
          { submitQ := (TS.drop j).map SubmitItem.text ++ [SubmitItem.sentinel],
            playQ := ((TS.take j).drop j).map
              (fun t => PlayItem.item t (fetchedWav fetch t)),
            played := TS.take j,
            cancelFlag := false, doneFlag := false, speaking := false } =
          { submitQ := (TS.drop j).map SubmitItem.text ++ [SubmitItem.sentinel],
            playQ := ((TS.take j).drop j).map
              (fun t => PlayItem.item t (fetchedWav fetch t)),
            played := TS.take j,
            cancelFlag := false, doneFlag := false, speaking := false } := by
        rw [hnil]
        rfl
      rw [heq]
      exact PipelineInv.fetching j j le_rfl hk
  | draining j hj =>
    rcases Nat.lt_or_ge j TS.length with hjlt | hjge
    · -- the player pulls and plays the item for `TS[j]`
      have hdropj : TS.drop j = TS[j] :: TS.drop (j + 1) :=
        List.drop_eq_getElem_cons hjlt
      have htakej : TS.take (j + 1) = TS.take j ++ [TS[j]] := by
        rw [List.take_succ, List.getElem?_eq_getElem hjlt]
        rfl
      have heq : playStep
          { submitQ := [],
            playQ := ((TS.drop j).map
              (fun t => PlayItem.item t (fetchedWav fetch t)))
              ++ [PlayItem.sentinel],
            played := TS.take j,
            cancelFlag := false, doneFlag := false, speaking := false } =
          { submitQ := [],
            playQ := ((TS.drop (j + 1)).map
              (fun t => PlayItem.item t (fetchedWav fetch t)))
              ++ [PlayItem.sentinel],
            played := TS.take (j + 1),
            cancelFlag := false, doneFlag := false, speaking := false } := by
        rw [hdropj, htakej]
        simp only [List.map_cons, List.cons_append, playStep,
          Bool.false_eq_true, if_false]
      rw [heq]
      exact PipelineInv.draining (j + 1) hjlt
    · -- the player pulls the sentinel: fire `_done`, reset shared state
      have hjeq : j = TS.length := le_antisymm hj hjge
      subst hjeq
      have heq : playStep
          { submitQ := [],
            playQ := ((TS.drop TS.length).map
              (fun t => PlayItem.item t (fetchedWav fetch t)))
              ++ [PlayItem.sentinel],
            played := TS.take TS.length,
            cancelFlag := false, doneFlag := false, speaking := false } =
          { submitQ := [], playQ := [], played := TS,
            cancelFlag := false, doneFlag := true, speaking := false } := by
        simp only [List.drop_length, List.map_nil, List.nil_append, playStep,
          List.take_length]
      rw [heq]
      exact PipelineInv.finished

/-- The pipeline invariant is preserved under every interleaving of the
fetcher and player threads. -/
theorem pipelineInv_run (fetch : String → Option (List ℤ)) (TS : List String)
    (hTS : ∀ t ∈ TS, pyStripStr t = t ∧ t ≠ "" ∧ fetch t ≠ none)
    (sched : List Choice) (s : TTSState) (hs : PipelineInv fetch TS s) :
    PipelineInv fetch TS (runPipeline fetch sched s) := by
  induction sched generalizing s with
  | nil => simpa [runPipeline] using hs
  | cons c cs ih =>
    have hstep : PipelineInv fetch TS
        (match c with
         | Choice.fetcher => fetchStep fetch s
         | Choice.player => playStep s) := by
      cases c with
      | fetcher => exact pipelineInv_fetchStep fetch TS hTS s hs
      | player => exact pipelineInv_playStep fetch TS s hs
    simpa [runPipeline, List.foldl_cons] using
      ih _ hstep

/-- What each shape of the pipeline invariant yields: the played list is
always a prefix of the submitted texts, and once `_done` has fired all of
them have been played, both queues are empty and `is_speaking` is false. -/
theorem pipelineInv_out (fetch : String → Option (List ℤ)) (TS : List String)
    (s : TTSState) (hs : PipelineInv fetch TS s) :
    (s.played <+: TS) ∧
    (s.doneFlag = true →
      s.played = TS ∧ s.submitQ = [] ∧ s.playQ = [] ∧ s.speaking = false) := by
  cases hs with
  | fetching j k hjk hk =>
    exact ⟨List.take_prefix _ _, fun h => absurd h (by simp)⟩
  | draining j hj =>
    exact ⟨List.take_prefix _ _, fun h => absurd h (by simp)⟩
  | finished =>
    exact ⟨List.prefix_refl _, fun _ => ⟨rfl, rfl, rfl, rfl⟩⟩

/-- `PipelineInvOk` holds at the state `submit`s-then-`flush` leaves
behind. -/
theorem pipelineInvOk_init (fetch : String → Option (List ℤ))
    (texts : List String) (h : ∀ t ∈ texts, pyStripStr t = t ∧ t ≠ "") :
    PipelineInvOk fetch texts (afterSubmitsAndFlush texts) := by
  rw [afterSubmitsAndFlush_eq texts h]
  have hinv : PipelineInvOk fetch texts
      { submitQ := texts.map SubmitItem.text ++ [SubmitItem.sentinel],
        playQ := List.filterMap (fetchEntry fetch) [],
        played := playedOf fetch [],
        cancelFlag := false, doneFlag := false, speaking := false } :=
    PipelineInvOk.fetching [] [] texts (by simp)
  simpa [playedOf] using hinv

/-- One `_fetch_loop` iteration preserves `PipelineInvOk`, fetch failures
included: a dropped item enters neither `_play_q` nor the played list. -/
theorem pipelineInvOk_fetchStep (fetch : String → Option (List ℤ))
    (TS : List String) (htexts : ∀ t ∈ TS, pyStripStr t = t ∧ t ≠ "")
    (s : TTSState) (hs : PipelineInvOk fetch TS s) :
    PipelineInvOk fetch TS (fetchStep fetch s) := by
  cases hs with
  | finished => exact PipelineInvOk.finished
  | draining done mid hTS => exact PipelineInvOk.draining done mid hTS
  | fetching done mid todo hTS =>
    cases todo with
    | nil =>
      -- the fetcher pulls the sentinel and forwards it
      by_cases hq : (mid.filterMap (fetchEntry fetch)).length < 2
      · have heq : fetchStep fetch
            { submitQ := List.map SubmitItem.text [] ++ [SubmitItem.sentinel],
              playQ := mid.filterMap (fetchEntry fetch),
              played := playedOf fetch done,
              cancelFlag := false, doneFlag := false, speaking := false } =
            { submitQ := [],
              playQ := mid.filterMap (fetchEntry fetch) ++ [PlayItem.sentinel],
              played := playedOf fetch done,
              cancelFlag := false, doneFlag := false, speaking := false } := by
          simp only [List.map_nil, List.nil_append, fetchStep]
          rw [if_pos hq]
        rw [heq]
        exact PipelineInvOk.draining done mid (by simpa using hTS)
      · have heq : fetchStep fetch
            { submitQ := List.map SubmitItem.text [] ++ [SubmitItem.sentinel],
              playQ := mid.filterMap (fetchEntry fetch),
              played := playedOf fetch done,
              cancelFlag := false, doneFlag := false, speaking := false } =
            { submitQ := List.map SubmitItem.text [] ++ [SubmitItem.sentinel],
              playQ := mid.filterMap (fetchEntry fetch),
              played := playedOf fetch done,
              cancelFlag := false, doneFlag := false, speaking := false } := by
          simp only [List.map_nil, List.nil_append, fetchStep]
          rw [if_neg hq]
        rw [heq]
        exact PipelineInvOk.fetching done mid [] hTS
    | cons t rest =>
      have hmem : t ∈ TS := by rw [hTS]; simp
      obtain ⟨htrim, hne⟩ := htexts t hmem
      have hTS2 : TS = done ++ (mid ++ [t]) ++ rest := by rw [hTS]; simp
      cases hfk : fetch t with
      | none =>
        -- failed fetch: the item is dropped
        have heq : fetchStep fetch
            { submitQ := (t :: rest).map SubmitItem.text ++ [SubmitItem.sentinel],
              playQ := mid.filterMap (fetchEntry fetch),
              played := playedOf fetch done,
              cancelFlag := false, doneFlag := false, speaking := false } =
            { submitQ := rest.map SubmitItem.text ++ [SubmitItem.sentinel],
              playQ := mid.filterMap (fetchEntry fetch),
              played := playedOf fetch done,
              cancelFlag := false, doneFlag := false, speaking := false } := by
          simp only [List.map_cons, List.cons_append, fetchStep, htrim,
            Bool.false_eq_true, if_false]
          rw [if_neg hne, hfk]
        rw [heq]
        have hres := @PipelineInvOk.fetching fetch TS done (mid ++ [t]) rest hTS2
        simpa [fetchEntry, hfk, playedOf] using hres
      | some w =>
        by_cases hq : (mid.filterMap (fetchEntry fetch)).length < 2
        · -- successful fetch, room in `_play_q`: push the item
          have heq : fetchStep fetch
              { submitQ := (t :: rest).map SubmitItem.text ++ [SubmitItem.sentinel],
                playQ := mid.filterMap (fetchEntry fetch),
                played := playedOf fetch done,
                cancelFlag := false, doneFlag := false, speaking := false } =
              { submitQ := rest.map SubmitItem.text ++ [SubmitItem.sentinel],
                playQ := mid.filterMap (fetchEntry fetch) ++ [PlayItem.item t w],
                played := playedOf fetch done,
                cancelFlag := false, doneFlag := false, speaking := false } := by
            simp only [List.map_cons, List.cons_append, fetchStep, htrim, hfk,
              Bool.false_eq_true, if_false]
            rw [if_neg hne, if_pos hq]
          rw [heq]
          have hres := @PipelineInvOk.fetching fetch TS done (mid ++ [t]) rest hTS2
          simpa [fetchEntry, hfk, playedOf] using hres
        · -- successful fetch, `_play_q` full: blocked put, stutter
          have heq : fetchStep fetch
              { submitQ := (t :: rest).map SubmitItem.text ++ [SubmitItem.sentinel],
                playQ := mid.filterMap (fetchEntry fetch),
                played := playedOf fetch done,
                cancelFlag := false, doneFlag := false, speaking := false } =
              { submitQ := (t :: rest).map SubmitItem.text ++ [SubmitItem.sentinel],
                playQ := mid.filterMap (fetchEntry fetch),
                played := playedOf fetch done,
                cancelFlag := false, doneFlag := false, speaking := false } := by
            simp only [List.map_cons, List.cons_append, fetchStep, htrim, hfk,
              Bool.false_eq_true, if_false]
            rw [if_neg hne, if_neg hq]
          rw [heq]
          exact PipelineInvOk.fetching done mid (t :: rest) hTS

/-- One `_play_loop` iteration preserves `PipelineInvOk`, fetching phase:
proved by induction on the `mid` segment, absorbing the dropped items the
player never sees. -/
theorem playStepOk_fetching (fetch : String → Option (List ℤ))
    (TS : List String) :
    ∀ mid done todo : List String, TS = done ++ mid ++ todo →
      PipelineInvOk fetch TS (playStep
        { submitQ := todo.map SubmitItem.text ++ [SubmitItem.sentinel],
          playQ := mid.filterMap (fetchEntry fetch),
          played := playedOf fetch done,
          cancelFlag := false, doneFlag := false, speaking := false }) := by
  intro mid
  induction mid with
  | nil =>
    intro done todo hTS
    exact PipelineInvOk.fetching done [] todo hTS
  | cons m mid' ih =>
    intro done todo hTS
    have hTS2 : TS = (done ++ [m]) ++ mid' ++ todo := by rw [hTS]; simp
    cases hfm : fetch m with
    | none =>
      -- `m` was dropped by the fetcher: the player never sees it
      have hres := ih (done ++ [m]) todo hTS2
      simpa [fetchEntry, hfm, playedOf] using hres
    | some w =>
      -- the player pulls and plays `m`
      have hfe : fetchEntry fetch m = some (PlayItem.item m w) := by
        simp [fetchEntry, hfm]
      have heq : playStep
          { submitQ := todo.map SubmitItem.text ++ [SubmitItem.sentinel],
            playQ := (m :: mid').filterMap (fetchEntry fetch),
            played := playedOf fetch done,
            cancelFlag := false, doneFlag := false, speaking := false } =
          { submitQ := todo.map SubmitItem.text ++ [SubmitItem.sentinel],
            playQ := mid'.filterMap (fetchEntry fetch),
            played := playedOf fetch done ++ [m],
            cancelFlag := false, doneFlag := false, speaking := false } := by
        rw [List.filterMap_cons_some hfe]
        simp only [playStep, Bool.false_eq_true, if_false]
      rw [heq]
      have hres := @PipelineInvOk.fetching fetch TS (done ++ [m]) mid' todo hTS2
      simpa [playedOf, hfm] using hres

/-- One `_play_loop` iteration preserves `PipelineInvOk`, draining phase:
the sentinel is consumed once every fetched item before it has been
played. -/
theorem playStepOk_draining (fetch : String → Option (List ℤ))
    (TS : List String) :
    ∀ mid done : List String, TS = done ++ mid →
      PipelineInvOk fetch TS (playStep
        { submitQ := [],
          playQ := mid.filterMap (fetchEntry fetch) ++ [PlayItem.sentinel],
          played := playedOf fetch done,
          cancelFlag := false, doneFlag := false, speaking := false }) := by
  intro mid
  induction mid with
  | nil =>
    intro done hTS
    have hdone : done = TS := by simpa using hTS.symm
    subst hdone
    exact PipelineInvOk.finished
  | cons m mid' ih =>
    intro done hTS
    have hTS2 : TS = (done ++ [m]) ++ mid' := by rw [hTS]; simp
    cases hfm : fetch m with
    | none =>
      have hres := ih (done ++ [m]) hTS2
      simpa [fetchEntry, hfm, playedOf] using hres
    | some w =>
      have hfe : fetchEntry fetch m = some (PlayItem.item m w) := by
        simp [fetchEntry, hfm]
      have heq : playStep
          { submitQ := [],
            playQ := (m :: mid').filterMap (fetchEntry fetch)
              ++ [PlayItem.sentinel],
            played := playedOf fetch done,
            cancelFlag := false, doneFlag := false, speaking := false } =
          { submitQ := [],
            playQ := mid'.filterMap (fetchEntry fetch) ++ [PlayItem.sentinel],
            played := playedOf fetch done ++ [m],
            cancelFlag := false, doneFlag := false, speaking := false } := by
        rw [List.filterMap_cons_some hfe]
        simp only [List.cons_append, playStep, Bool.false_eq_true, if_false]
      rw [heq]
      have hres := @PipelineInvOk.draining fetch TS (done ++ [m]) mid' hTS2
      simpa [playedOf, hfm] using hres

/-- One `_play_loop` iteration preserves `PipelineInvOk`. -/
theorem pipelineInvOk_playStep (fetch : String → Option (List ℤ))
    (TS : List String) (s : TTSState) (hs : PipelineInvOk fetch TS s) :
    PipelineInvOk fetch TS (playStep s) := by
  cases hs with
  | finished => exact PipelineInvOk.finished
  | fetching done mid todo hTS => exact playStepOk_fetching fetch TS mid done todo hTS
  | draining done mid hTS => exact playStepOk_draining fetch TS mid done hTS

/-- `PipelineInvOk` is preserved under every interleaving of the fetcher
and player threads. -/
theorem pipelineInvOk_run (fetch : String → Option (List ℤ))
    (TS : List String) (htexts : ∀ t ∈ TS, pyStripStr t = t ∧ t ≠ "")
    (sched : List Choice) (s : TTSState) (hs : PipelineInvOk fetch TS s) :
    PipelineInvOk fetch TS (runPipeline fetch sched s) := by
  induction sched generalizing s with
  | nil => simpa [runPipeline] using hs
  | cons c cs ih =>
    have hstep : PipelineInvOk fetch TS
        (match c with
         | Choice.fetcher => fetchStep fetch s
         | Choice.player => playStep s) := by
      cases c with
      | fetcher => exact pipelineInvOk_fetchStep fetch TS htexts s hs
      | player => exact pipelineInvOk_playStep fetch TS s hs
    simpa [runPipeline, List.foldl_cons] using ih _ hstep

/-- Once the done event has fired, exactly the successfully fetched texts
have been played in submission order, both queues are empty and
`is_speaking` is false. -/
theorem pipelineInvOk_out (fetch : String → Option (List ℤ))
    (TS : List String) (s : TTSState) (hs : PipelineInvOk fetch TS s)
    (hdone : s.doneFlag = true) :
    s.played = playedOf fetch TS ∧ s.submitQ = [] ∧ s.playQ = [] ∧
      s.speaking = false := by
  cases hs with
  | fetching done mid todo hTS => exact absurd hdone (by simp)
  | draining done mid hTS => exact absurd hdone (by simp)
  | finished => exact ⟨rfl, rfl, rfl, rfl⟩

/-- C6: the RMS-to-mouth-shape mapping is boundary-exact at the fixed
thresholds: 299 maps to 0, 300 to 1, 1499 to 1, 1500 to 2, 3999 to 2 and
4000 to 3, and in general RMS < 300 gives 0, 300 ≤ RMS < 1500 gives 1,
1500 ≤ RMS < 4000 gives 2, and RMS ≥ 4000 gives 3. -/
theorem C6_rms_to_shape_boundaries :
    rms_to_shape 299 = 0 ∧ rms_to_shape 300 = 1 ∧ rms_to_shape 1499 = 1 ∧
    rms_to_shape 1500 = 2 ∧ rms_to_shape 3999 = 2 ∧ rms_to_shape 4000 = 3 ∧
    ∀ rms : ℚ,
      (rms < 300 → rms_to_shape rms = 0) ∧
      (300 ≤ rms → rms < 1500 → rms_to_shape rms = 1) ∧
      (1500 ≤ rms → rms < 4000 → rms_to_shape rms = 2) ∧
      (4000 ≤ rms → rms_to_shape rms = 3) := by
  refine ⟨by norm_num [rms_to_shape], by norm_num [rms_to_shape],
    by norm_num [rms_to_shape], by norm_num [rms_to_shape],
    by norm_num [rms_to_shape], by norm_num [rms_to_shape], fun rms => ?_⟩
  unfold rms_to_shape
  refine ⟨fun h => by rw [if_pos h], fun h1 h2 => ?_, fun h1 h2 => ?_, fun h1 => ?_⟩
  · rw [if_neg (by linarith), if_pos h2]
  · rw [if_neg (by linarith), if_neg (by linarith), if_pos h2]
  · rw [if_neg (by linarith), if_neg (by linarith), if_neg (by linarith)]

/-- Witness for C6 at RMS = 100, 1000, 2000 and 5000. -/
theorem C6_rms_to_shape_boundaries_witness :
    rms_to_shape 100 = 0 ∧ rms_to_shape 1000 = 1 ∧
    rms_to_shape 2000 = 2 ∧ rms_to_shape 5000 = 3 :=
  ⟨(C6_rms_to_shape_boundaries.2.2.2.2.2.2 100).1 (by norm_num),
   (C6_rms_to_shape_boundaries.2.2.2.2.2.2 1000).2.1 (by norm_num) (by norm_num),
   (C6_rms_to_shape_boundaries.2.2.2.2.2.2 2000).2.2.1 (by norm_num) (by norm_num),
   (C6_rms_to_shape_boundaries.2.2.2.2.2.2 5000).2.2.2 (by norm_num)⟩

/-- C9, counterexample: calling `Recorder.start()` while `is_recording` is
true is not an error — the `if self.is_recording: return` guard makes it a
silent, successful no-op (it does not raise even when spawning would
fail, since no spawn is attempted). -/
theorem C9_start_while_recording_counterexample :
    recorderStart true false = StartResult.ok true ∧
    recorderStart true false ≠ StartResult.raised ∧
    recorderStart true true ≠ StartResult.raised := by decide

/-- C9 as amended: `Recorder.start()` while a recording is in progress is a
no-op that returns normally with the recording still active, regardless of
whether spawning a new recording process would have failed. -/
theorem C9_start_while_recording_noop (spawnFails : Bool) :
    recorderStart true spawnFails = StartResult.ok true := by
  cases spawnFails <;> rfl

/-- C10, counterexample: a capture whose WAV header parses but whose data
chunk is truncated (header says 1 frame, data chunk empty) makes
`check_audio_level` return 0.0 — not positive infinity — and the silence
gate classifies it as silence. -/
theorem C10_truncated_counterexample :
    check_audio_level (WavRead.ok 1 1 [] false) = AudioLevel.finite 0 ∧
    check_audio_level (WavRead.ok 1 1 [] false) ≠ AudioLevel.posInf ∧
    (check_audio_level (WavRead.ok 1 1 [] false)).ltPos SILENCE_RMS_THRESHOLD
      = true := by
  refine ⟨rfl, by decide, ?_⟩
  norm_num [check_audio_level, AudioLevel.ltPos, SILENCE_RMS_THRESHOLD]

/-- C10 as amended: when reading or parsing the WAV raises an exception
(missing file, malformed header), `check_audio_level` returns positive
infinity and the silence gate never classifies the capture as silence; but
a header that parses with a truncated or empty data chunk (or zero frames)
returns 0.0 and is treated as silence. -/
theorem C10_failure_returns_infinity (t : ℚ) :
    check_audio_level WavRead.failure = AudioLevel.posInf ∧
    (check_audio_level WavRead.failure).ltPos t = false ∧
    check_audio_level (WavRead.ok 1 1 [] false) = AudioLevel.finite 0 ∧
    check_audio_level (WavRead.ok 0 1 [] false) = AudioLevel.finite 0 :=
  ⟨rfl, rfl, rfl, rfl⟩

/-- C5, counterexample: in the cancel branch of `_handle_press` the
assignment `self._state = State.IDLE` precedes the cancel hook — the event
trace for a press in TRANSCRIBING with the dwell gate satisfied is
`[wake, state := IDLE, cancel hook]`, so the state assignment is not
performed after the hook. -/
theorem C5_cancel_sets_state_first_counterexample :
    (handlePress State.transcribing true).1 =
      [Event.hookAnyPress, Event.setState State.idle, Event.hookCancel] ∧
    (handlePress State.transcribing true).1.indexOf (Event.setState State.idle) <
      (handlePress State.transcribing true).1.indexOf Event.hookCancel := by
  decide

/-- C5 as amended: in the abort-listening branch the state assignment to
IDLE follows the abort hook; in the cancel branch the assignment to IDLE
precedes the cancel hook; in the ordinary press path the assignment to
LISTENING precedes the press hook. -/
theorem C5_hook_ordering (st : State) (ca : Bool) :
    (handlePress State.listening ca).1 =
      [Event.hookAnyPress, Event.hookAbortListening, Event.setState State.idle] ∧
    (st = State.transcribing ∨ st = State.thinking ∨ st = State.streaming →
      (handlePress st true).1 =
        [Event.hookAnyPress, Event.setState State.idle, Event.hookCancel]) ∧
    (st = State.idle ∨ st = State.error →
      (handlePress st ca).1 =
        [Event.hookAnyPress, Event.setState State.listening, Event.hookPress]) := by
  cases st <;> cases ca <;> decide

/-- Witness for C5 at the press, cancel and abort branches. -/
theorem C5_hook_ordering_witness :
    (handlePress State.listening true).1 =
      [Event.hookAnyPress, Event.hookAbortListening, Event.setState State.idle] ∧
    (handlePress State.thinking true).1 =
      [Event.hookAnyPress, Event.setState State.idle, Event.hookCancel] ∧
    (handlePress State.idle false).1 =
      [Event.hookAnyPress, Event.setState State.listening, Event.hookPress] :=
  ⟨(C5_hook_ordering State.idle true).1,
   (C5_hook_ordering State.thinking true).2.1 (Or.inr (Or.inl rfl)),
   (C5_hook_ordering State.idle false).2.2 (Or.inl rfl)⟩

/-- C3: a press while the state is TRANSCRIBING, THINKING or STREAMING with
dwell (now − state-entry time) under 2.0 s leaves the state unchanged and
fires none of the press/cancel/abort hooks (only the wake hook runs); with
dwell at least 2.0 s the state becomes IDLE and the cancel hook fires
exactly once. -/
theorem C3_dwell_gated_cancel (st : State) (now enteredAt : ℚ)
    (hst : st = State.transcribing ∨ st = State.thinking ∨ st = State.streaming) :
    (now - enteredAt < 2 →
      handlePress st (cancelAllowedMain now enteredAt) = ([Event.hookAnyPress], st)) ∧
    (2 ≤ now - enteredAt →
      (handlePress st (cancelAllowedMain now enteredAt)).2 = State.idle ∧
      (handlePress st (cancelAllowedMain now enteredAt)).1.count Event.hookCancel
        = 1) := by
  constructor
  · intro h
    have hca : cancelAllowedMain now enteredAt = false := by
      simp only [cancelAllowedMain, decide_eq_false_iff_not, ge_iff_le, not_le]
      linarith
    rw [hca]
    rcases hst with h1 | h1 | h1 <;> subst h1 <;> rfl
  · intro h
    have hca : cancelAllowedMain now enteredAt = true := by
      simp only [cancelAllowedMain, decide_eq_true_eq, ge_iff_le]
      linarith
    rw [hca]
    rcases hst with h1 | h1 | h1 <;> subst h1 <;> exact ⟨rfl, rfl⟩

/-- Witness for C3: dwell 1.0 s ignores the press; dwell 5.0 s cancels. -/
theorem C3_dwell_gated_cancel_witness :
    handlePress State.transcribing (cancelAllowedMain 1 0)
      = ([Event.hookAnyPress], State.transcribing) ∧
    (handlePress State.thinking (cancelAllowedMain 5 0)).2 = State.idle ∧
    (handlePress State.thinking (cancelAllowedMain 5 0)).1.count Event.hookCancel
      = 1 :=
  ⟨(C3_dwell_gated_cancel State.transcribing 1 0 (Or.inl rfl)).1 (by norm_num),
   ((C3_dwell_gated_cancel State.thinking 5 0 (Or.inr (Or.inl rfl))).2
      (by norm_num)).1,
   ((C3_dwell_gated_cancel State.thinking 5 0 (Or.inr (Or.inl rfl))).2
      (by norm_num)).2⟩

/-- C2: for every sequence of (pre-trimmed, nonempty) texts submitted to
the player followed by `flush()`, and for every interleaving of the fetcher
and player threads in which every fetch succeeds, the played items are
always a prefix of the submitted texts in submission order, and once the
`flush` sentinel's done signal has fired, exactly the submitted texts have
been played, in submission order: the single sequential fetch stage and the
FIFO queues make playback order independent of per-item fetch latency. -/
theorem C2_fifo_playback (texts : List String)
    (fetch : String → Option (List ℤ)) (sched : List Choice)
    (htexts : ∀ t ∈ texts, pyStripStr t = t ∧ t ≠ "")
    (hfetch : ∀ t ∈ texts, fetch t ≠ none) :
    (runPipeline fetch sched (afterSubmitsAndFlush texts)).played <+: texts ∧
    ((runPipeline fetch sched (afterSubmitsAndFlush texts)).doneFlag = true →
      (runPipeline fetch sched (afterSubmitsAndFlush texts)).played = texts) := by
  have hTS : ∀ t ∈ texts, pyStripStr t = t ∧ t ≠ "" ∧ fetch t ≠ none :=
    fun t ht => ⟨(htexts t ht).1, (htexts t ht).2, hfetch t ht⟩
  have hinv := pipelineInv_run fetch texts hTS sched _
    (pipelineInv_init fetch texts htexts)
  have hout := pipelineInv_out fetch texts _ hinv
  exact ⟨hout.1, fun h => (hout.2 h).1⟩

/-- Witness for C2: texts A., B., C. under an interleaving in which the
player keeps up with the fetcher. -/
theorem C2_fifo_playback_witness :
    (runPipeline (fun _ => some [])
      [Choice.fetcher, Choice.fetcher, Choice.player, Choice.fetcher,
       Choice.player, Choice.fetcher, Choice.player, Choice.player]
      (afterSubmitsAndFlush ["A.", "B.", "C."])).played <+: ["A.", "B.", "C."] :=
  (C2_fifo_playback ["A.", "B.", "C."] (fun _ => some []) _
    (by decide) (by decide)).1

/-- C4, counterexample: `flush()` does not return only after all submitted
items have played.  First facet: `self._done.wait(timeout=120)` also
returns when the 120-second timeout expires with the done event unset —
with `"A."` submitted and neither worker thread having progressed (a
stalled synthesis), a timed-out `flush` returns with nothing played and the
submit queue still holding the item and the sentinel.  Second facet: even
on the signal path, an item whose fetch failed is dropped and never plays,
so the done event fires with a submitted item unplayed. -/
theorem C4_flush_return_counterexample :
    flushReturn (runPipeline (fun _ => some []) []
      (afterSubmitsAndFlush ["A."])) true ∧
    (runPipeline (fun _ => some []) []
      (afterSubmitsAndFlush ["A."])).played = [] ∧
    (runPipeline (fun _ => some []) []
      (afterSubmitsAndFlush ["A."])).submitQ
      = [SubmitItem.text "A.", SubmitItem.sentinel] ∧
    flushReturn (runPipeline (fun _ => none)
      [Choice.fetcher, Choice.fetcher, Choice.player]
      (afterSubmitsAndFlush ["A."])) false ∧
    (runPipeline (fun _ => none)
      [Choice.fetcher, Choice.fetcher, Choice.player]
      (afterSubmitsAndFlush ["A."])).played = [] := by
  decide

/-- C4 as amended: `flush()` has two return paths.  When the done signal
releases the wait (before the 120-second timeout), every previously
submitted item whose synthesis succeeded has been played, in submission
order, both internal queues are empty and `is_speaking` is false — under
every interleaving of the fetcher and player threads; items whose fetch
failed are dropped and never play.  When the 120-second timeout expires
first, `flush` returns with the done event unset and items possibly still
queued or playing, and none of these guarantees hold. -/
theorem C4_flush_done_signal_guarantees (texts : List String)
    (fetch : String → Option (List ℤ)) (sched : List Choice)
    (htexts : ∀ t ∈ texts, pyStripStr t = t ∧ t ≠ "")
    (hret : flushReturn (runPipeline fetch sched (afterSubmitsAndFlush texts))
      false) :
    (runPipeline fetch sched (afterSubmitsAndFlush texts)).played
      = playedOf fetch texts ∧
    (runPipeline fetch sched (afterSubmitsAndFlush texts)).submitQ = [] ∧
    (runPipeline fetch sched (afterSubmitsAndFlush texts)).playQ = [] ∧
    (runPipeline fetch sched (afterSubmitsAndFlush texts)).speaking = false := by
  have hinv := pipelineInvOk_run fetch texts htexts sched _
    (pipelineInvOk_init fetch texts htexts)
  exact pipelineInvOk_out fetch texts _ hinv (by simpa [flushReturn] using hret)

/-- Witness for C4: three texts (one of which fails to fetch), driven to
the done signal. -/
theorem C4_flush_done_signal_guarantees_witness :
    (runPipeline (fun t => if t = "B." then none else some [])
      [Choice.fetcher, Choice.fetcher, Choice.player, Choice.fetcher,
       Choice.player, Choice.fetcher, Choice.player]
      (afterSubmitsAndFlush ["A.", "B.", "C."])).played
      = playedOf (fun t => if t = "B." then none else some [])
          ["A.", "B.", "C."] ∧
    (runPipeline (fun t => if t = "B." then none else some [])
      [Choice.fetcher, Choice.fetcher, Choice.player, Choice.fetcher,
       Choice.player, Choice.fetcher, Choice.player]
      (afterSubmitsAndFlush ["A.", "B.", "C."])).submitQ = [] ∧
    (runPipeline (fun t => if t = "B." then none else some [])
      [Choice.fetcher, Choice.fetcher, Choice.player, Choice.fetcher,
       Choice.player, Choice.fetcher, Choice.player]
      (afterSubmitsAndFlush ["A.", "B.", "C."])).playQ = [] ∧
    (runPipeline (fun t => if t = "B." then none else some [])
      [Choice.fetcher, Choice.fetcher, Choice.player, Choice.fetcher,
       Choice.player, Choice.fetcher, Choice.player]
      (afterSubmitsAndFlush ["A.", "B.", "C."])).speaking = false :=
  C4_flush_done_signal_guarantees ["A.", "B.", "C."]
    (fun t => if t = "B." then none else some []) _ (by decide) (by decide)

/-- C8, counterexample: with `CONVERSATION_HISTORY_LENGTH = 0` the trim
slice is `history[-0:]`, which in Python is the whole list, so after an
episode the history has 4 messages and exceeds the configured bound of
`0 * 2` messages. -/
theorem C8_zero_length_counterexample :
    (updateHistory 0 [⟨"user", "a"⟩, ⟨"assistant", "b"⟩] "c" "d").length = 4 ∧
    ¬ ((updateHistory 0 [⟨"user", "a"⟩, ⟨"assistant", "b"⟩] "c" "d").length
        ≤ 0 * 2) := by
  decide

/-- C8 as amended: whenever the configured `CONVERSATION_HISTORY_LENGTH` is
at least 1 (the default is 5), the completed episode's history update
appends the `{user, assistant}` turn pair and trims to at most
`2 × CONVERSATION_HISTORY_LENGTH` messages, dropping the oldest messages
first (the result is a suffix of the appended history), so the length never
exceeds the bound; with `CONVERSATION_HISTORY_LENGTH = 0` the Python slice
`history[-0:]` keeps everything and the bound fails. -/
theorem C8_history_bounded (histLen : ℕ) (hist : List ChatMsg)
    (user assistant : String) (hlen : 1 ≤ histLen) :
    (updateHistory histLen hist user assistant).length ≤ histLen * 2 ∧
    updateHistory histLen hist user assistant <:+
      (hist ++ [⟨"user", user⟩, ⟨"assistant", assistant⟩]) ∧
    ∃ pre, updateHistory histLen hist user assistant
      = pre ++ [⟨"user", user⟩, ⟨"assistant", assistant⟩] := by
  simp only [updateHistory, pySliceLastN]
  by_cases hgt :
      (hist ++ [(⟨"user", user⟩ : ChatMsg), ⟨"assistant", assistant⟩]).length
        > histLen * 2
  · rw [if_pos hgt, if_neg (by omega)]
    refine ⟨?_, List.drop_suffix _ _, ?_⟩
    · rw [List.length_drop]
      omega
    · have hlen2 :
          (hist ++ [(⟨"user", user⟩ : ChatMsg), ⟨"assistant", assistant⟩]).length
            = hist.length + 2 := by
        simp
      have hle :
          (hist ++ [(⟨"user", user⟩ : ChatMsg), ⟨"assistant", assistant⟩]).length
            - histLen * 2 ≤ hist.length := by
        omega
      exact ⟨hist.drop _, List.drop_append_of_le_length hle⟩
  · rw [if_neg hgt]
    exact ⟨by omega, List.suffix_refl _, ⟨hist, rfl⟩⟩

/-- Witness for C8 with the default configuration. -/
theorem C8_history_bounded_witness :
    (updateHistory 5 [] "hi" "yo").length ≤ 5 * 2 ∧
    updateHistory 5 [] "hi" "yo" <:+
      ([] ++ [⟨"user", "hi"⟩, ⟨"assistant", "yo"⟩]) ∧
    ∃ pre, updateHistory 5 [] "hi" "yo"
      = pre ++ [⟨"user", "hi"⟩, ⟨"assistant", "yo"⟩] :=
  C8_history_bounded 5 [] "hi" "yo" (by norm_num)

/-- C1 (code bug at the failing input): with TTS enabled, a non-silent
capture, transcript `"hi"` and the single chat delta `"Hello there."`, a
cancellation that increments the generation at instant 16 — while the
worker is blocked inside `tts.flush()` (the `ttsFlushWait` operation at
instant 15) — is followed by the worker's `display.stop_character()` and
`display.set_response_text(...)` updates and by the conversation-history
mutation (instants 16-18), even though every `_is_stale` read from instant
16 on observes the episode as stale: there is no staleness check between
`main.py` line 213 and the history update at lines 231-235, so these
side effects occur past the cancellation point. -/
theorem C1_cancel_during_flush_leaks_effects :
    (15, Eff.ttsFlushWait) ∈ runInner flushCancelEnv (some 16) ∧
    staleAt (some 16) 16 = true ∧
    (16, Eff.displayStopCharacter) ∈ runInner flushCancelEnv (some 16) ∧
    (17, Eff.displaySetResponseText "Hello there.") ∈
      runInner flushCancelEnv (some 16) ∧
    (18, Eff.historyUpdate "hi" "Hello there.") ∈
      runInner flushCancelEnv (some 16) ∧
    ((runInner flushCancelEnv (some 16)).filter
      (fun p => decide (16 ≤ p.1) && (p.2.isDisplay || p.2.isHistory))).length
        = 3 := by
  decide

/-- C7: whenever the RMS of the captured audio is below the silence
threshold (default 200), the episode short-circuits: the transcription and
chat collaborators are never called (under any cancellation schedule), and
in an uncancelled episode the neutral "No speech detected" message is shown
and the only state assignment performed is the return to IDLE. -/
theorem C7_silence_short_circuit (env : EpisodeEnv) (cancelAt : Option ℕ)
    (hsil : env.level.ltPos SILENCE_RMS_THRESHOLD = true) :
    (∀ p ∈ runInner env cancelAt,
        p.2 ≠ Eff.transcribeCall ∧ p.2 ≠ Eff.chatStreamOpen) ∧
    (cancelAt = none →
      Eff.displaySetStatus "No speech detected" ∈
        (runInner env cancelAt).map Prod.snd ∧
      ((runInner env cancelAt).map Prod.snd).filter Eff.isStateSet
        = [Eff.stateSet State.idle]) := by
  constructor
  · cases hb1 : staleAt cancelAt 2 <;> cases hb2 : staleAt cancelAt 6 <;>
      simp [runInner, hsil, emit, emits, hb1, hb2, goIdleEffs]
  · intro hnone
    subst hnone
    simp [runInner, hsil, emit, emits, staleAt, goIdleEffs, Eff.isStateSet]

/-- Witness for C7: a silent capture (RMS 0) with no cancellation. -/
theorem C7_silence_short_circuit_witness :
    (∀ p ∈ runInner ⟨AudioLevel.finite 0, true, "x", [], false⟩ none,
        p.2 ≠ Eff.transcribeCall ∧ p.2 ≠ Eff.chatStreamOpen) ∧
    Eff.displaySetStatus "No speech detected" ∈
      (runInner ⟨AudioLevel.finite 0, true, "x", [], false⟩ none).map Prod.snd :=
  ⟨(C7_silence_short_circuit _ none (by norm_num [AudioLevel.ltPos,
      SILENCE_RMS_THRESHOLD])).1,
   ((C7_silence_short_circuit _ none (by norm_num [AudioLevel.ltPos,
      SILENCE_RMS_THRESHOLD])).2 rfl).1⟩

end OpenClaw
